import Mathlib

/-!
Shallow embedding of the Pokémon expert system (sistema-experto-pokemon):
the forward-chaining inference engine (`src/inference.py`), the knowledge
base of rules (`src/kb.py`), and the type-effectiveness helpers
(`src/data_loader.py`, `src/main.py`, `src/app_streamlit.py`).

Modelling conventions:
- Python floats (HP percentages, effectiveness multipliers, move scores)
  are modelled as rationals `ℚ`; every numeric literal occurring in the
  code (60, 0.5, 2.0, 30, ...) is exactly representable, so comparisons
  agree with the source.
- The fact store is a Python dict keyed by the fixed set of input keys the
  CLI/UI layers always populate, plus the two derived keys.  It is
  modelled as a record with one field per key.  `best_move = none` models
  "the key `best_move` is absent" (the only writer, D1, always stores a
  non-`None` move, and no caller pre-populates the key, so a present-`None`
  value never occurs).
- A rule's Python `then` callback mutates the store in place; here it is a
  pure function `Facts → Facts` (field `act`, since `then` is reserved).
- `forward_chain` keeps `fired` as a Python `set` and returns
  `list(fired)`; set iteration order over strings is hash-dependent and
  unspecified, so the returned `fired_rules` list is modelled
  relationally: any permutation of the (deterministic) firing-order list
  computed by `forwardChainCore`.
-/

/-- A candidate move record as built by `ask_moves` (main.py) /
`build_moves` (app_streamlit.py): name, veekun identifier, damage type,
power, effectiveness against the defender, composite score. -/
structure Move where
  name : String
  identifier : String
  type : String
  power : ℚ
  eff : ℚ
  score : ℚ
deriving DecidableEq, Repr

/-- A recommendation entry appended by `add_reco` (kb.py): text and
numeric priority. -/
structure Reco where
  text : String
  priority : Nat
deriving DecidableEq, Repr

/-- The fact store (`FactBase = Dict[str, Any]`) restricted to the keys
the system uses.  Input keys are set by the caller (`main.py` /
`app_streamlit.py`); `best_move` and `recommendations` are the derived
keys written by rule actions. -/
structure Facts where
  my_pokemon : String
  enemy_pokemon : String
  my_types : List String
  enemy_types : List String
  my_hp_pct : ℚ
  enemy_hp_pct : ℚ
  my_advantage : Bool
  enemy_advantage : Bool
  my_moves : List Move
  has_priority_move : Bool
  has_defensive_move : Bool
  is_faster : Bool
  is_slower : Bool
  best_move : Option Move := none
  recommendations : List Reco := []
deriving DecidableEq, Repr

/-- `Rule` dataclass from inference.py: name, condition (`when`), action
(Python `then`, renamed `act` because `then` is a Lean keyword), and the
human-readable explanation. -/
structure Rule where
  name : String
  when : Facts → Bool
  act : Facts → Facts
  explain : String

/-- The trace line appended when rule `r` fires:
Python `f"[{r.name}] {r.explain}"`. -/
def fmtRule (r : Rule) : String := "[" ++ r.name ++ "] " ++ r.explain

/-- One sweep of the inner `for r in rules:` loop of `forward_chain`,
threading the mutable state (facts, fired, trace, fired_any) as
accumulators.  `fired` is the contents of the Python `set`, kept in
insertion order (only membership is ever queried on it). -/
def sweep : List Rule → Facts → List String → List String → Bool →
    Facts × List String × List String × Bool
  | [], f, fired, tr, a => (f, fired, tr, a)
  | r :: rs, f, fired, tr, a =>
    if r.name ∈ fired then
      sweep rs f fired tr a
    else if r.when f then
      sweep rs (r.act f) (fired ++ [r.name]) (tr ++ [fmtRule r]) true
    else
      sweep rs f fired tr a

/-- The outer `for _ in range(max_loops):` loop of `forward_chain` with
its `if not fired_any: break`.  The fuel is the number of remaining
iterations of `range`. -/
def loop (rules : List Rule) : Nat → Facts → List String → List String →
    Facts × List String × List String
  | 0, f, fired, tr => (f, fired, tr)
  | n + 1, f, fired, tr =>
    let s := sweep rules f fired tr false
    if s.2.2.2 then loop rules n s.1 s.2.1 s.2.2.1 else (s.1, s.2.1, s.2.2.1)

/-- Deterministic core of `forward_chain`: final facts, the fired-rule
names in firing order (the insertion order of the Python `set`), and the
trace. -/
def forwardChainCore (facts : Facts) (rules : List Rule)
    (maxLoops : Nat := 20) : Facts × List String × List String :=
  loop rules maxLoops facts [] []

/-- `InferenceResult` dataclass from inference.py. -/
structure InferenceResult where
  facts : Facts
  fired_rules : List String
  trace : List String

/-- The observable behaviour of `forward_chain facts rules max_loops`.
The facts and the trace are deterministic; `fired_rules = list(fired)`
enumerates a Python `set` of strings, whose iteration order is
hash-dependent and unspecified, so it is modelled as an arbitrary
permutation of the firing-order list. -/
def ForwardChain (facts : Facts) (rules : List Rule) (maxLoops : Nat)
    (res : InferenceResult) : Prop :=
  res.facts = (forwardChainCore facts rules maxLoops).1 ∧
  res.trace = (forwardChainCore facts rules maxLoops).2.2 ∧
  res.fired_rules.Perm (forwardChainCore facts rules maxLoops).2.1

/-- Number of sweeps (iterations of the `range(max_loops)` loop,
including the final zero-firing sweep that triggers `break`) that
`forward_chain` executes from a given state. -/
def sweepCount (rules : List Rule) : Nat → Facts → List String → List String → Nat
  | 0, _, _, _ => 0
  | n + 1, f, fired, tr =>
    let s := sweep rules f fired tr false
    if s.2.2.2 then 1 + sweepCount rules n s.1 s.2.1 s.2.2.1 else 1

/-! ## Knowledge base (kb.py) -/

/-- `add_reco(facts, text, priority)`: appends a recommendation to
`facts["recommendations"]` (created empty by `setdefault` when absent —
the record default plays that role). -/
def add_reco (f : Facts) (text : String) (priority : Nat) : Facts :=
  { f with recommendations := f.recommendations ++ [{ text := text, priority := priority }] }

/-- Python `max(moves, key=lambda m: m.get("score", 0.0))`: returns the
first element whose score is maximal (later elements replace the current
best only on a strictly greater key). -/
def pyMax : List Move → Option Move
  | [] => none
  | m :: ms => some (ms.foldl (fun best x => if best.score < x.score then x else best) m)

/-- `compute_best_move(facts)`: `None` when `my_moves` is empty,
otherwise the highest-scoring move (first maximum). -/
def compute_best_move (f : Facts) : Option Move :=
  pyMax f.my_moves

/-- Python `str.capitalize()`: first character upper-cased, the rest
lower-cased. -/
def pyCapitalize (s : String) : String :=
  match s.data with
  | [] => ""
  | c :: cs => String.mk (c.toUpper :: cs.map Char.toLower)

def R1_ATTACK_WITH_TYPE_ADVANTAGE : Rule :=
  { name := "R1_ATTACK_WITH_TYPE_ADVANTAGE"
    when := fun f => decide (60 ≤ f.my_hp_pct) && f.my_advantage
    act := fun f => add_reco f "Tienes mucha vida y ventaja de tipos: atacar es una buena opción." 80
    explain := "Con vida alta y ventaja de tipos, es razonable jugar ofensivo." }

def R2_SWITCH_IF_LOW_HP_AND_ENEMY_ADVANTAGE : Rule :=
  { name := "R2_SWITCH_IF_LOW_HP_AND_ENEMY_ADVANTAGE"
    when := fun f => decide (f.my_hp_pct ≤ 35) && f.enemy_advantage
    act := fun f => add_reco f "Estás en desventaja de tipos y con poca vida: se recomienda cambiar de Pokémon." 95
    explain := "En desventaja clara y con poca vida, lo experto es pivotar a otro Pokémon." }

def R3_FINISH_ENEMY_IF_LOW_HP : Rule :=
  { name := "R3_FINISH_ENEMY_IF_LOW_HP"
    when := fun f => decide (f.enemy_hp_pct ≤ 25) && f.my_advantage
    act := fun f => add_reco f "El rival está muy tocado y tienes ventaja: intenta rematarlo este turno." 90
    explain := "Con el rival en vida baja y ventaja, conviene buscar el KO." }

def R4_NEUTRAL_PLAY_IF_NO_CLEAR_ADVANTAGE : Rule :=
  { name := "R4_NEUTRAL_PLAY_IF_NO_CLEAR_ADVANTAGE"
    when := fun f => decide (50 ≤ f.my_hp_pct) && decide (50 ≤ f.enemy_hp_pct)
      && !f.my_advantage && !f.enemy_advantage
    act := fun f => add_reco f "No hay ventaja clara de tipos: puedes optar por un movimiento seguro o ver qué hace el rival." 50
    explain := "En emparejamientos neutros se recomienda jugar de forma segura." }

def R5_RISKY_PLAY_IF_BOTH_LOW : Rule :=
  { name := "R5_RISKY_PLAY_IF_BOTH_LOW"
    when := fun f => decide (f.my_hp_pct ≤ 30) && decide (f.enemy_hp_pct ≤ 30)
    act := fun f => add_reco f "Ambos estáis muy bajos de vida: cualquier turno puede decidir el combate." 70
    explain := "Con ambos Pokémon en vida crítica, cada decisión tiene mucho impacto." }

def D1_COMPUTE_BEST_MOVE : Rule :=
  { name := "D1_COMPUTE_BEST_MOVE"
    when := fun f => f.best_move.isNone && decide (0 < f.my_moves.length)
    act := fun f => { f with best_move := compute_best_move f }
    explain := "Se calcula el mejor movimiento disponible según efectividad, potencia y STAB." }

def R6_USE_SUPER_EFFECTIVE : Rule :=
  { name := "R6_USE_SUPER_EFFECTIVE"
    when := fun f =>
      match f.best_move with
      | none => false
      | some bm => decide (2 ≤ bm.eff)
    act := fun f =>
      match f.best_move with
      | none => f
      | some bm =>
        add_reco f ("Tu mejor opción ofensiva es " ++ bm.name
          ++ " (efectividad x" ++ toString bm.eff ++ ").") 92
    explain := "Cuando hay un movimiento súper eficaz, se prioriza ese ataque." }

def R7_USE_NEUTRAL_BEST : Rule :=
  { name := "R7_USE_NEUTRAL_BEST"
    when := fun f =>
      match f.best_move with
      | none => false
      | some bm => decide (mkRat 1 2 < bm.eff) && decide (bm.eff < 2)
    act := fun f =>
      match f.best_move with
      | none => f
      | some bm =>
        add_reco f ("No tienes movimientos súper eficaces. Usa " ++ bm.name
          ++ " como mejor opción neutral.") 75
    explain := "Cuando no hay ventaja de tipos, se usa el movimiento neutral más fuerte." }

def R8_SWITCH_IF_ALL_RESISTED : Rule :=
  { name := "R8_SWITCH_IF_ALL_RESISTED"
    when := fun f =>
      match f.best_move with
      | none => false
      | some bm => decide (bm.eff ≤ mkRat 1 2) && decide (40 ≤ f.enemy_hp_pct)
    act := fun f =>
      add_reco f "Tus movimientos son poco eficaces contra el rival. Plantéate cambiar de Pokémon." 85
    explain := "Si todo lo que tienes es resistido y el rival tiene bastante vida, es preferible cambiar." }

def R9_DEFEND_IF_VERY_LOW_HP_NO_KO : Rule :=
  { name := "R9_DEFEND_IF_VERY_LOW_HP_NO_KO"
    when := fun f => decide (f.my_hp_pct ≤ 25) && f.has_defensive_move
      && (match f.best_move with
          | none => true
          | some bm => decide (bm.eff < 2))
    act := fun f =>
      add_reco f "Tienes poca vida y no parece que puedas hacer un KO claro: usar un movimiento defensivo/curación es razonable." 88
    explain := "Si no hay opción clara de eliminar al rival y estás muy tocado, prioriza sobrevivir." }

def R10_FINISH_WITH_PRIORITY : Rule :=
  { name := "R10_FINISH_WITH_PRIORITY"
    when := fun f => decide (f.enemy_hp_pct ≤ 25) && f.has_priority_move
    act := fun f =>
      add_reco f "El rival está muy bajo de vida y tienes un movimiento de prioridad: es buena idea usarlo para asegurar el KO." 93
    explain := "La prioridad reduce el riesgo de que el rival te golpee antes en esta situación." }

def R11_SWITCH_IF_SLOW_AND_WEAK : Rule :=
  { name := "R11_SWITCH_IF_SLOW_AND_WEAK"
    when := fun f => decide (f.my_hp_pct ≤ 40) && f.is_slower && f.enemy_advantage
    act := fun f =>
      add_reco f "Eres más lento, el rival tiene ventaja de tipos y vas justo de vida: la opción más segura es cambiar de Pokémon." 97
    explain := "Ser más lento en desventaja de tipos aumenta la probabilidad de caer antes de actuar." }

def R12_ATTACK_IF_FASTER_AND_OK_HP : Rule :=
  { name := "R12_ATTACK_IF_FASTER_AND_OK_HP"
    when := fun f => decide (40 ≤ f.my_hp_pct) && f.is_faster
      && (match f.best_move with
          | none => false
          | some bm => decide (1 ≤ bm.eff))
    act := fun f =>
      add_reco f "Eres más rápido, tienes vida razonable y un movimiento al menos neutral: atacar es una jugada sólida." 78
    explain := "Ser más rápido permite presionar al rival antes de que actúe." }

def R13_STRONG_PRESSURE_IF_FASTER_SUPER_EFFECTIVE : Rule :=
  { name := "R13_STRONG_PRESSURE_IF_FASTER_SUPER_EFFECTIVE"
    when := fun f => decide (40 ≤ f.my_hp_pct) && decide (f.my_hp_pct ≤ 80)
      && decide (40 ≤ f.enemy_hp_pct) && decide (f.enemy_hp_pct ≤ 80)
      && f.is_faster
      && (match f.best_move with
          | none => false
          | some bm => decide (2 ≤ bm.eff))
    act := fun f =>
      add_reco f "Tienes un movimiento súper eficaz siendo más rápido y ambos estáis a media vida: presionar fuerte puede darte una gran ventaja." 89
    explain := "En situaciones equilibradas, un ataque súper eficaz y rápido suele decantar el combate." }

def R14_NO_GOOD_MOVES_WARNING : Rule :=
  { name := "R14_NO_GOOD_MOVES_WARNING"
    when := fun f => decide (0 < f.my_moves.length)
      && f.my_moves.all (fun m => decide (m.score < 30))
    act := fun f =>
      add_reco f "Ninguno de tus movimientos parece especialmente bueno (baja potencia o poco eficaz). Plantéate cambiar si es posible." 60
    explain := "Si todos los movimientos tienen mala puntuación, quizá otro Pokémon tenga mejores opciones." }

def R15_NO_MOVES_INFO : Rule :=
  { name := "R15_NO_MOVES_INFO"
    when := fun f => decide (f.my_moves.length = 0)
    act := fun f =>
      add_reco f "No se han especificado movimientos, solo puedo recomendar de forma general según tipos y vida." 40
    explain := "La ausencia de información sobre movimientos limita la precisión de las recomendaciones." }

def R16_SAME_MAIN_TYPE_BATTLE : Rule :=
  { name := "R16_SAME_MAIN_TYPE_BATTLE"
    when := fun f => decide (0 < f.my_types.length) && decide (0 < f.enemy_types.length)
      && decide (f.my_types.head? = f.enemy_types.head?)
      && !f.my_advantage && !f.enemy_advantage
    act := fun f =>
      add_reco f ("Tu " ++ f.my_pokemon ++ " comparte el mismo tipo principal que "
        ++ f.enemy_pokemon ++ ": los movimientos de cobertura de otros tipos pueden ser decisivos.") 65
    explain := "En combates de mismo tipo, los movimientos de cobertura suelen marcar la diferencia." }

def R17_EXPLAIN_TYPE_ADVANTAGE_WITH_NAMES : Rule :=
  { name := "R17_EXPLAIN_TYPE_ADVANTAGE_WITH_NAMES"
    when := fun f => decide (f.my_pokemon ≠ "") && decide (f.enemy_pokemon ≠ "")
      && f.my_advantage
    act := fun f =>
      add_reco f (pyCapitalize f.my_pokemon ++ " tiene ventaja de tipos sobre "
        ++ pyCapitalize f.enemy_pokemon ++ ": mantener este emparejamiento suele ser beneficioso.") 55
    explain := "Se ofrece una explicación específica de la ventaja de tipos usando los nombres de los Pokémon." }

/-- `rules()` from kb.py: the knowledge base in its declared order. -/
def kbRules : List Rule :=
  [ R1_ATTACK_WITH_TYPE_ADVANTAGE
  , R2_SWITCH_IF_LOW_HP_AND_ENEMY_ADVANTAGE
  , R3_FINISH_ENEMY_IF_LOW_HP
  , R4_NEUTRAL_PLAY_IF_NO_CLEAR_ADVANTAGE
  , R5_RISKY_PLAY_IF_BOTH_LOW
  , D1_COMPUTE_BEST_MOVE
  , R6_USE_SUPER_EFFECTIVE
  , R7_USE_NEUTRAL_BEST
  , R8_SWITCH_IF_ALL_RESISTED
  , R9_DEFEND_IF_VERY_LOW_HP_NO_KO
  , R10_FINISH_WITH_PRIORITY
  , R11_SWITCH_IF_SLOW_AND_WEAK
  , R12_ATTACK_IF_FASTER_AND_OK_HP
  , R13_STRONG_PRESSURE_IF_FASTER_SUPER_EFFECTIVE
  , R14_NO_GOOD_MOVES_WARNING
  , R15_NO_MOVES_INFO
  , R16_SAME_MAIN_TYPE_BATTLE
  , R17_EXPLAIN_TYPE_ADVANTAGE_WITH_NAMES ]

/-! ## Type effectiveness (data_loader.py, main.py, app_streamlit.py) -/

/-- The nested dict `chart[attacking][defending] = multiplier`;
`none` models an absent (attacking, defending) pair (at either level of
the nesting — both `get` calls default). -/
def Chart : Type := String → String → Option ℚ

/-- `effectiveness(attacking, defending_types, chart)` from
data_loader.py: lower-cases both names and multiplies the per-defending-
type multipliers, defaulting to 1.0 for absent pairs. -/
def effectiveness (attacking : String) (defending_types : List String)
    (chart : Chart) : ℚ :=
  defending_types.foldl
    (fun total dt => total * ((chart attacking.toLower dt.toLower).getD 1)) 1

/-- `has_type_advantage` from main.py: best multiplier any attacking type
achieves, advantage iff it exceeds 1. -/
def has_type_advantage (attacking_types defending_types : List String)
    (chart : Chart) : Bool :=
  decide (1 < attacking_types.foldl
    (fun best t =>
      let e := effectiveness t defending_types chart
      if best < e then e else best) 1)

/-- `has_type_advantage` from app_streamlit.py: same fold, but guarded by
an early `False` when either type list is empty. -/
def has_type_advantage_streamlit (attacking_types defending_types : List String)
    (chart : Chart) : Bool :=
  if attacking_types.isEmpty || defending_types.isEmpty then
    false
  else
    decide (1 < attacking_types.foldl
      (fun best t =>
        let e := effectiveness t defending_types chart
        if best < e then e else best) 1)

/-! ## Engine lemmas: single-step equations and the trace invariant -/

theorem sweep_skip (r : Rule) (rs : List Rule) (f : Facts)
    (fired tr : List String) (a : Bool) (h : r.name ∈ fired) :
    sweep (r :: rs) f fired tr a = sweep rs f fired tr a := by
  simp [sweep, h]

theorem sweep_fire (r : Rule) (rs : List Rule) (f : Facts)
    (fired tr : List String) (a : Bool) (h1 : r.name ∉ fired)
    (h2 : r.when f = true) :
    sweep (r :: rs) f fired tr a
      = sweep rs (r.act f) (fired ++ [r.name]) (tr ++ [fmtRule r]) true := by
  simp [sweep, h1, h2]

theorem sweep_nofire (r : Rule) (rs : List Rule) (f : Facts)
    (fired tr : List String) (a : Bool) (h1 : r.name ∉ fired)
    (h2 : r.when f = false) :
    sweep (r :: rs) f fired tr a = sweep rs f fired tr a := by
  simp [sweep, h1, h2]

/-- The fired list only ever grows during a sweep. -/
theorem sweep_fired_extend (rs : List Rule) (f : Facts)
    (fired tr : List String) (a : Bool) :
    ∃ ext, (sweep rs f fired tr a).2.1 = fired ++ ext := by
  induction rs generalizing f fired tr a with
  | nil => exact ⟨[], by simp [sweep]⟩
  | cons r rs ih =>
    by_cases h : r.name ∈ fired
    · rw [sweep_skip r rs f fired tr a h]; exact ih f fired tr a
    · cases hw : r.when f with
      | true =>
        rw [sweep_fire r rs f fired tr a h hw]
        obtain ⟨ext, hext⟩ := ih (r.act f) (fired ++ [r.name]) (tr ++ [fmtRule r]) true
        exact ⟨r.name :: ext, by simpa using hext⟩
      | false =>
        rw [sweep_nofire r rs f fired tr a h hw]; exact ih f fired tr a

/-- Invariant of one sweep: it fires a sequence `new` of rules (in rule
order), appending exactly their names to the fired set and their
formatted explanations to the trace; the fired rules come from the rule
list, were not fired before, have pairwise distinct names, and the
`fired_any` flag reports whether `new` is nonempty (once true it stays
true); a sweep firing nothing leaves the facts untouched. -/
theorem sweep_spec (rs : List Rule) (f : Facts) (fired tr : List String)
    (a : Bool) :
    ∃ new : List Rule,
      (sweep rs f fired tr a).2.1 = fired ++ new.map Rule.name ∧
      (sweep rs f fired tr a).2.2.1 = tr ++ new.map fmtRule ∧
      (∀ r ∈ new, r ∈ rs) ∧
      (∀ r ∈ new, r.name ∉ fired) ∧
      (new.map Rule.name).Nodup ∧
      (sweep rs f fired tr a).2.2.2 = (a || !new.isEmpty) ∧
      (new = [] → (sweep rs f fired tr a).1 = f) := by
  induction rs generalizing f fired tr a with
  | nil =>
    exact ⟨[], by simp [sweep]⟩
  | cons r rs ih =>
    by_cases h : r.name ∈ fired
    · rw [sweep_skip r rs f fired tr a h]
      obtain ⟨new, h1, h2, h3, h4, h5, h6, h7⟩ := ih f fired tr a
      exact ⟨new, h1, h2, fun x hx => List.mem_cons_of_mem r (h3 x hx), h4, h5, h6, h7⟩
    · cases hw : r.when f with
      | true =>
        rw [sweep_fire r rs f fired tr a h hw]
        obtain ⟨new, h1, h2, h3, h4, h5, h6, h7⟩ :=
          ih (r.act f) (fired ++ [r.name]) (tr ++ [fmtRule r]) true
        refine ⟨r :: new, ?_, ?_, ?_, ?_, ?_, ?_, ?_⟩
        · simpa using h1
        · simpa using h2
        · intro x hx
          rcases List.mem_cons.mp hx with hx | hx
          · exact hx ▸ List.mem_cons_self r rs
          · exact List.mem_cons_of_mem r (h3 x hx)
        · intro x hx
          rcases List.mem_cons.mp hx with hx | hx
          · exact hx ▸ h
          · exact fun hmem => (h4 x hx) (by simp [hmem])
        · refine List.nodup_cons.mpr ⟨?_, h5⟩
          intro hmem
          obtain ⟨x, hx, hxname⟩ := List.mem_map.mp hmem
          exact (h4 x hx) (by simp [hxname])
        · simpa using h6
        · intro hcontra; cases hcontra
      | false =>
        rw [sweep_nofire r rs f fired tr a h hw]
        obtain ⟨new, h1, h2, h3, h4, h5, h6, h7⟩ := ih f fired tr a
        exact ⟨new, h1, h2, fun x hx => List.mem_cons_of_mem r (h3 x hx), h4, h5, h6, h7⟩

theorem loop_succ (rules : List Rule) (n : Nat) (f : Facts)
    (fired tr : List String) :
    loop rules (n + 1) f fired tr =
      (let s := sweep rules f fired tr false
       if s.2.2.2 then loop rules n s.1 s.2.1 s.2.2.1
       else (s.1, s.2.1, s.2.2.1)) := rfl

/-- Invariant of the outer loop: starting from a fired set / trace that
are the name- and explanation-images of a firing sequence `pre` (with
distinct names, drawn from the knowledge base), the loop's final fired
set and trace are the images of a longer firing sequence with the same
properties. -/
theorem loop_spec (rules : List Rule) (n : Nat) (f : Facts)
    (pre : List Rule) (hnd : (pre.map Rule.name).Nodup)
    (hpre : ∀ r ∈ pre, r ∈ rules) :
    ∃ rseq : List Rule,
      (∀ r ∈ rseq, r ∈ rules) ∧ (rseq.map Rule.name).Nodup ∧
      (loop rules n f (pre.map Rule.name) (pre.map fmtRule)).2.1
        = rseq.map Rule.name ∧
      (loop rules n f (pre.map Rule.name) (pre.map fmtRule)).2.2
        = rseq.map fmtRule := by
  induction n generalizing f pre with
  | zero => exact ⟨pre, hpre, hnd, rfl, rfl⟩
  | succ n ih =>
    obtain ⟨new, h1, h2, h3, h4, h5, h6, h7⟩ :=
      sweep_spec rules f (pre.map Rule.name) (pre.map fmtRule) false
    have hnd' : ((pre ++ new).map Rule.name).Nodup := by
      rw [List.map_append]
      refine List.Nodup.append hnd h5 ?_
      intro x hx hx'
      obtain ⟨y, hy, hyx⟩ := List.mem_map.mp hx'
      exact (h4 y hy) (hyx ▸ hx)
    have hpre' : ∀ r ∈ pre ++ new, r ∈ rules := by
      intro x hx
      rcases List.mem_append.mp hx with hx | hx
      · exact hpre x hx
      · exact h3 x hx
    have he1 : (sweep rules f (pre.map Rule.name) (pre.map fmtRule) false).2.1
        = (pre ++ new).map Rule.name := by rw [h1, List.map_append]
    have he2 : (sweep rules f (pre.map Rule.name) (pre.map fmtRule) false).2.2.1
        = (pre ++ new).map fmtRule := by rw [h2, List.map_append]
    simp only [loop_succ]
    cases hfa : (sweep rules f (pre.map Rule.name) (pre.map fmtRule) false).2.2.2 with
    | true =>
      rw [if_pos rfl, he1, he2]
      exact ih _ (pre ++ new) hnd' hpre'
    | false =>
      rw [if_neg (by simp)]
      exact ⟨pre ++ new, hpre', hnd', he1, he2⟩

/-- Invariant of a whole run: the fired-name list (in firing order) and
the trace are the images of one firing sequence of pairwise-distinct-name
rules drawn from the knowledge base. -/
theorem core_spec (facts : Facts) (rs : List Rule) (maxLoops : Nat) :
    ∃ rseq : List Rule,
      (∀ r ∈ rseq, r ∈ rs) ∧ (rseq.map Rule.name).Nodup ∧
      (forwardChainCore facts rs maxLoops).2.1 = rseq.map Rule.name ∧
      (forwardChainCore facts rs maxLoops).2.2 = rseq.map fmtRule := by
  simpa using loop_spec rs maxLoops facts [] (by simp) (by simp)

/-! ## Helper lemmas -/

/-- Python `max` with a key: the fold keeps an element of the list whose
key is greater or equal to every key seen, and at least the seed's. -/
theorem foldl_pyMax_spec (ms : List Move) (m : Move) :
    (ms.foldl (fun best x => if best.score < x.score then x else best) m) ∈ m :: ms ∧
    m.score ≤ (ms.foldl (fun best x => if best.score < x.score then x else best) m).score ∧
    ∀ x ∈ ms, x.score ≤ (ms.foldl (fun best x => if best.score < x.score then x else best) m).score := by
  induction ms generalizing m with
  | nil => exact ⟨List.mem_cons_self m [], le_refl _, by simp⟩
  | cons y ys ih =>
    simp only [List.foldl_cons]
    obtain ⟨hmem, hseed, hall⟩ := ih (if m.score < y.score then y else m)
    have hstep : (if m.score < y.score then y else m) ∈ [m, y] := by
      by_cases h : m.score < y.score <;> simp [h]
    have hm : m.score ≤ (if m.score < y.score then y else m).score := by
      by_cases h : m.score < y.score <;> simp [h]; exact le_of_lt h
    have hy : y.score ≤ (if m.score < y.score then y else m).score := by
      by_cases h : m.score < y.score <;> simp [h]; exact le_of_not_lt h
    refine ⟨?_, le_trans hm hseed, ?_⟩
    · rcases List.mem_cons.mp hmem with h | h
      · rcases List.mem_cons.mp (h ▸ hstep) with h' | h'
        · simp [h']
        · simp at h'; simp [h']
      · simp [h]
    · intro x hx
      rcases List.mem_cons.mp hx with h | h
      · subst h; exact le_trans hy hseed
      · exact hall x h

/-- `pyMax` returns a member of the list whose score is maximal. -/
theorem pyMax_spec (ms : List Move) (b : Move) (h : pyMax ms = some b) :
    b ∈ ms ∧ ∀ x ∈ ms, x.score ≤ b.score := by
  cases ms with
  | nil => simp [pyMax] at h
  | cons m rest =>
    obtain ⟨hmem, hseed, hall⟩ := foldl_pyMax_spec rest m
    have hb : rest.foldl (fun best x => if best.score < x.score then x else best) m = b := by
      simpa [pyMax] using h
    refine ⟨hb ▸ hmem, ?_⟩
    intro x hx
    rcases List.mem_cons.mp hx with h' | h'
    · exact h' ▸ hb ▸ hseed
    · exact hb ▸ hall x h'

/-- Every fired-rule name occurs at most once in the firing-order list. -/
theorem core_fired_count_le_one (facts : Facts) (rs : List Rule)
    (maxLoops : Nat) (s : String) :
    (forwardChainCore facts rs maxLoops).2.1.count s ≤ 1 := by
  obtain ⟨rseq, _, hnd, hf, _⟩ := core_spec facts rs maxLoops
  rw [hf]
  exact List.nodup_iff_count_le_one.mp hnd s

/-- Folding multiplication from 1 computes the product of the images. -/
theorem foldl_mul_eq_prod (g : String → ℚ) (l : List String) (a : ℚ) :
    l.foldl (fun total dt => total * g dt) a = a * (l.map g).prod := by
  induction l generalizing a with
  | nil => simp
  | cons x xs ih => simp [ih, mul_assoc]

/-! ## C8: effectiveness is the product of per-type multipliers -/

/-- C8: for every attacking type, defending type list and chart,
`effectiveness` returns the product over the defending types of the
chart's multiplier for the (lower-cased) pair, defaulting to 1.0 for any
pair absent from the chart. -/
theorem C8_effectiveness_is_product (attacking : String)
    (defending_types : List String) (chart : Chart) :
    effectiveness attacking defending_types chart
      = (defending_types.map
          (fun dt => (chart attacking.toLower dt.toLower).getD 1)).prod := by
  rw [effectiveness, foldl_mul_eq_prod, one_mul]

/-- An attack against an empty defending list is the empty product 1. -/
theorem effectiveness_nil (attacking : String) (chart : Chart) :
    effectiveness attacking [] chart = 1 := rfl

/-- With an empty defending list the running best multiplier stays 1. -/
theorem foldl_best_nil_defending (atk : List String) (chart : Chart) :
    atk.foldl (fun best t =>
      let e := effectiveness t [] chart
      if best < e then e else best) 1 = 1 := by
  induction atk with
  | nil => rfl
  | cons t ts ih => simpa [effectiveness] using ih

/-! ## C9: the two has_type_advantage implementations agree -/

/-- C9: the `has_type_advantage` of main.py and the guarded one of
app_streamlit.py are extensionally equal; the streamlit guard is
redundant because an empty attacking list leaves the best multiplier at
1 and an empty defending list makes every `effectiveness` call return 1,
so both return `false` in those cases. -/
theorem C9_has_type_advantage_equiv (attacking_types defending_types : List String)
    (chart : Chart) :
    has_type_advantage attacking_types defending_types chart
      = has_type_advantage_streamlit attacking_types defending_types chart := by
  cases attacking_types with
  | nil => simp [has_type_advantage, has_type_advantage_streamlit]
  | cons t ts =>
    cases defending_types with
    | nil =>
      simp [has_type_advantage, has_type_advantage_streamlit,
        foldl_best_nil_defending (t :: ts) chart]
    | cons d ds =>
      simp [has_type_advantage, has_type_advantage_streamlit]

/-! ## C2: at-most-once firing -/

/-- C2: in every run of `forward_chain`, the fired names and the trace
are the images of one firing sequence `rseq` of rules with pairwise
distinct names, so any rule's name appears at most once in the fired
collection and the rule contributes at most one explanation entry to the
trace (the claim's distinct-names hypothesis is not even needed: the
`r.name in fired` guard enforces this per name). -/
theorem C2_at_most_once_firing (facts : Facts) (rs : List Rule)
    (maxLoops : Nat) (r : Rule) :
    ∃ rseq : List Rule,
      (∀ x ∈ rseq, x ∈ rs) ∧
      (forwardChainCore facts rs maxLoops).2.1 = rseq.map Rule.name ∧
      (forwardChainCore facts rs maxLoops).2.2 = rseq.map fmtRule ∧
      (forwardChainCore facts rs maxLoops).2.1.count r.name ≤ 1 ∧
      rseq.countP (fun x => x.name == r.name) ≤ 1 := by
  obtain ⟨rseq, hmem, hnd, hf, ht⟩ := core_spec facts rs maxLoops
  have hcount : (rseq.map Rule.name).count r.name ≤ 1 :=
    List.nodup_iff_count_le_one.mp hnd r.name
  refine ⟨rseq, hmem, hf, ht, by rw [hf]; exact hcount, ?_⟩
  have heq : (rseq.map Rule.name).count r.name
      = rseq.countP (fun x => x.name == r.name) := by
    simp [List.count, List.countP_map, Function.comp_def]
  exact heq ▸ hcount

/-! ## C3: termination bound and early fixed-point exit -/

/-- The number of sweeps is bounded by the remaining fuel. -/
theorem sweepCount_le (rs : List Rule) (n : Nat) (f : Facts)
    (fired tr : List String) :
    sweepCount rs n f fired tr ≤ n := by
  induction n generalizing f fired tr with
  | zero => exact Nat.le_refl 0
  | succ n ih =>
    show (if (sweep rs f fired tr false).2.2.2 then
        1 + sweepCount rs n (sweep rs f fired tr false).1
          (sweep rs f fired tr false).2.1 (sweep rs f fired tr false).2.2.1
      else 1) ≤ n + 1
    by_cases h : (sweep rs f fired tr false).2.2.2
    · rw [if_pos h]
      have := ih (sweep rs f fired tr false).1 (sweep rs f fired tr false).2.1
        (sweep rs f fired tr false).2.2.1
      omega
    · rw [if_neg h]; omega

/-- A sweep that fires nothing is the identity on the whole state. -/
theorem sweep_nofire_id (rs : List Rule) (f : Facts)
    (fired tr : List String)
    (h : (sweep rs f fired tr false).2.2.2 = false) :
    sweep rs f fired tr false = (f, fired, tr, false) := by
  obtain ⟨new, h1, h2, _, _, _, h6, h7⟩ := sweep_spec rs f fired tr false
  have hempty : new = [] := by
    rw [h] at h6
    cases new with
    | nil => rfl
    | cons a l => simp at h6
  subst hempty
  have e1 : (sweep rs f fired tr false).1 = f := h7 rfl
  have e2 : (sweep rs f fired tr false).2.1 = fired := by simpa using h1
  have e3 : (sweep rs f fired tr false).2.2.1 = tr := by simpa using h2
  rcases hs : sweep rs f fired tr false with ⟨a, b, c, d⟩
  rw [hs] at e1 e2 e3 h
  simp only [Prod.mk.injEq]
  exact ⟨by simpa using e1, by simpa using e2, by simpa using e3, by simpa using h⟩

/-- From a state whose sweep fires nothing, the loop returns the state
unchanged, whatever fuel remains. -/
theorem loop_fixed_point (rs : List Rule) (f : Facts)
    (fired tr : List String)
    (h : (sweep rs f fired tr false).2.2.2 = false) :
    ∀ n, loop rs n f fired tr = (f, fired, tr) := by
  intro n
  cases n with
  | zero => rfl
  | succ n =>
    have hid := sweep_nofire_id rs f fired tr h
    simp only [loop_succ, hid]
    simp

/-- C3: `forward_chain` performs at most `max_loops` sweeps (the default
is 20), and it stops as soon as a full sweep fires no rule: from any
fixed-point state the loop returns immediately, with any remaining
budget.  Hitting the cap is not an error: the engine is a total function
returning a plain result. -/
theorem C3_termination (facts : Facts) (rs : List Rule) (maxLoops : Nat) :
    sweepCount rs maxLoops facts [] [] ≤ maxLoops ∧
    (∀ (f : Facts) (fired tr : List String),
      (sweep rs f fired tr false).2.2.2 = false →
      ∀ n, loop rs n f fired tr = (f, fired, tr)) :=
  ⟨sweepCount_le rs maxLoops facts [] [],
   fun f fired tr h n => loop_fixed_point rs f fired tr h n⟩

/-- A fact store on which no rule of the shipped knowledge base is
eligible: moderate HP on both sides, no advantages, one decent move
already scored, the best move already derived with a mediocre (0.3)
effectiveness, enemy HP below 40. -/
def quietFacts : Facts :=
  { my_pokemon := "", enemy_pokemon := ""
    my_types := [], enemy_types := []
    my_hp_pct := 45, enemy_hp_pct := 39
    my_advantage := false, enemy_advantage := false
    my_moves := [{ name := "tackle", identifier := "tackle", type := "normal"
                   power := 40, eff := mkRat 3 10, score := 35 }]
    has_priority_move := false, has_defensive_move := false
    is_faster := false, is_slower := false
    best_move := some { name := "tackle", identifier := "tackle", type := "normal"
                        power := 40, eff := mkRat 3 10, score := 35 } }

theorem C3_termination_witness :
    sweepCount kbRules 20 quietFacts [] [] ≤ 20 ∧
    loop kbRules 7 quietFacts [] [] = (quietFacts, [], []) :=
  ⟨(C3_termination quietFacts kbRules 20).1,
   (C3_termination quietFacts kbRules 20).2 quietFacts [] [] (by decide) 7⟩

/-! ## C10: trace and fired set stay in one-to-one correspondence -/

/-- C10: in every result of `forward_chain`, the trace has exactly one
line per distinct fired rule name, and the i-th trace line is the string
`"[name] explanation"` of the i-th rule that fired (both lists are images
of the same firing sequence `rseq`). -/
theorem C10_trace_fired_correspondence (facts : Facts) (rs : List Rule)
    (maxLoops : Nat) :
    ∃ rseq : List Rule,
      (∀ x ∈ rseq, x ∈ rs) ∧
      (forwardChainCore facts rs maxLoops).2.1 = rseq.map Rule.name ∧
      (forwardChainCore facts rs maxLoops).2.2 = rseq.map fmtRule ∧
      (forwardChainCore facts rs maxLoops).2.2.length
        = (forwardChainCore facts rs maxLoops).2.1.dedup.length := by
  obtain ⟨rseq, hmem, hnd, hf, ht⟩ := core_spec facts rs maxLoops
  refine ⟨rseq, hmem, hf, ht, ?_⟩
  rw [hf, ht, List.dedup_eq_self.mpr hnd]
  simp

/-! ## C1: fired_rules is NOT ordered by firing order (Python set) -/

/-- A battle state that fires three rules, in the order R2, R5, R15. -/
def lowHpFacts : Facts :=
  { my_pokemon := "pikachu", enemy_pokemon := "onix"
    my_types := [], enemy_types := []
    my_hp_pct := 20, enemy_hp_pct := 20
    my_advantage := false, enemy_advantage := true
    my_moves := [], has_priority_move := false, has_defensive_move := false
    is_faster := false, is_slower := false }

/-- The deterministic core run on `lowHpFacts`. -/
def lowHpRun : Facts × List String × List String :=
  forwardChainCore lowHpFacts kbRules 20

/-- A possible `forward_chain` output on `lowHpFacts`: `list(fired)` may
enumerate the three fired names in (here: reversed) non-firing order,
since `fired` is a Python `set` of strings with hash-dependent iteration
order. -/
def lowHpResultReversed : InferenceResult :=
  { facts := lowHpRun.1
    fired_rules := [ "R15_NO_MOVES_INFO"
                   , "R5_RISKY_PLAY_IF_BOTH_LOW"
                   , "R2_SWITCH_IF_LOW_HP_AND_ENEMY_ADVANTAGE" ]
    trace := lowHpRun.2.2 }

/-- C1 counterexample: a legitimate output of `forward_chain` on
`lowHpFacts` whose `fired_rules` list does not coincide with the firing
order: the i-th name of `fired_rules` need not be the i-th rule that
fired, because `fired_rules = list(fired)` enumerates an unordered set
while the trace keeps firing order. -/
theorem C1_counterexample :
    ForwardChain lowHpFacts kbRules 20 lowHpResultReversed ∧
    lowHpResultReversed.fired_rules
      ≠ (forwardChainCore lowHpFacts kbRules 20).2.1 := by
  have h0 : lowHpRun = forwardChainCore lowHpFacts kbRules 20 := rfl
  simp only [ForwardChain, lowHpResultReversed, ← h0]
  refine ⟨?_, ?_⟩ <;> decide

/-- C1 amended: the result's trace lists the fired rules' explanations
in firing order, and `fired_rules` is a permutation (same names, each
exactly once) of the firing-order name list — but its own order is
unspecified. -/
theorem C1_fired_rules_permutation (facts : Facts) (rs : List Rule)
    (maxLoops : Nat) (res : InferenceResult)
    (h : ForwardChain facts rs maxLoops res) :
    ∃ rseq : List Rule,
      (∀ x ∈ rseq, x ∈ rs) ∧
      (rseq.map Rule.name).Nodup ∧
      res.trace = rseq.map fmtRule ∧
      res.fired_rules.Perm (rseq.map Rule.name) := by
  obtain ⟨rseq, hmem, hnd, hf, ht⟩ := core_spec facts rs maxLoops
  exact ⟨rseq, hmem, hnd, h.2.1.trans ht, hf ▸ h.2.2⟩

/-- The deterministic output on `lowHpFacts` (fired list taken in firing
order, a legal enumeration of the set). -/
def lowHpResultInOrder : InferenceResult :=
  { facts := lowHpRun.1
    fired_rules := lowHpRun.2.1
    trace := lowHpRun.2.2 }

theorem C1_fired_rules_permutation_witness :
    ∃ rseq : List Rule,
      (∀ x ∈ rseq, x ∈ kbRules) ∧
      (rseq.map Rule.name).Nodup ∧
      lowHpResultInOrder.trace = rseq.map fmtRule ∧
      lowHpResultInOrder.fired_rules.Perm (rseq.map Rule.name) := by
  have h0 : lowHpRun = forwardChainCore lowHpFacts kbRules 20 := rfl
  refine C1_fired_rules_permutation lowHpFacts kbRules 20 lowHpResultInOrder ?_
  simp only [ForwardChain, lowHpResultInOrder, ← h0]
  exact ⟨trivial, trivial, List.Perm.refl _⟩

/-! ## C5: effectiveness tiers of the best-move reaction rules -/

/-- C5: the conditions of the rules reacting to the derived best move
have exactly the stated tier boundaries: R6 fires iff the best move's
effectiveness is ≥ 2 (inclusive), R7 iff it lies strictly between 0.5
and 2, R8 iff it is ≤ 0.5 and the opponent's HP is ≥ 40; and as soon as
one candidate move scores ≥ 30 the all-moves-weak warning R14 is not
eligible.  (`mkRat 1 2` in the rule bodies is the literal 0.5.) -/
theorem C5_effectiveness_tiers (f : Facts) :
    (R6_USE_SUPER_EFFECTIVE.when f = true ↔
      ∃ bm, f.best_move = some bm ∧ 2 ≤ bm.eff) ∧
    (R7_USE_NEUTRAL_BEST.when f = true ↔
      ∃ bm, f.best_move = some bm ∧ (1 : ℚ)/2 < bm.eff ∧ bm.eff < 2) ∧
    (R8_SWITCH_IF_ALL_RESISTED.when f = true ↔
      ∃ bm, f.best_move = some bm ∧ bm.eff ≤ (1 : ℚ)/2 ∧ 40 ≤ f.enemy_hp_pct) ∧
    ((∃ m ∈ f.my_moves, 30 ≤ m.score) →
      R14_NO_GOOD_MOVES_WARNING.when f = false) := by
  have hhalf : (mkRat 1 2 : ℚ) = 1/2 := by rw [Rat.mkRat_eq_div]; norm_num
  refine ⟨?_, ?_, ?_, ?_⟩
  · cases hb : f.best_move <;> simp [R6_USE_SUPER_EFFECTIVE, hb]
  · cases hb : f.best_move <;> simp [R7_USE_NEUTRAL_BEST, hb, hhalf, and_assoc]
  · cases hb : f.best_move <;> simp [R8_SWITCH_IF_ALL_RESISTED, hb, hhalf, and_assoc]
  · rintro ⟨m, hm, hscore⟩
    simp only [R14_NO_GOOD_MOVES_WARNING, Bool.and_eq_false_iff]
    right
    refine Bool.eq_false_iff.mpr ?_
    intro hall
    rw [List.all_eq_true] at hall
    have hlt := hall m hm
    simp only [decide_eq_true_eq] at hlt
    exact absurd hscore (not_le.mpr hlt)

/-- The strongest move of the example stores: effectiveness exactly 2. -/
def surfMove : Move :=
  { name := "surf", identifier := "surf", type := "water"
    power := 90, eff := 2, score := 180 }

/-- A weaker move with a decent score (≥ 30). -/
def tackleMove : Move :=
  { name := "tackle", identifier := "tackle", type := "normal"
    power := 40, eff := 1, score := 40 }

/-- A store whose best move has already been derived with effectiveness
exactly 2 (the inclusive super-effective boundary). -/
def superEffFacts : Facts :=
  { my_pokemon := "", enemy_pokemon := ""
    my_types := [], enemy_types := []
    my_hp_pct := 50, enemy_hp_pct := 50
    my_advantage := false, enemy_advantage := false
    my_moves := [tackleMove, surfMove]
    has_priority_move := false, has_defensive_move := false
    is_faster := false, is_slower := false
    best_move := some surfMove }

theorem C5_effectiveness_tiers_witness :
    R6_USE_SUPER_EFFECTIVE.when superEffFacts = true ∧
    R14_NO_GOOD_MOVES_WARNING.when superEffFacts = false :=
  ⟨(C5_effectiveness_tiers superEffFacts).1.mpr ⟨surfMove, rfl, by decide⟩,
   (C5_effectiveness_tiers superEffFacts).2.2.2
     ⟨surfMove, by simp [superEffFacts], by decide⟩⟩

/-! ## C6: the derived best-move rule D1 -/

/-- C6: D1 is eligible exactly when the store has no best-move key and
the candidate list is non-empty; firing it records a candidate move of
maximal score; and in any run over the shipped knowledge base its name
enters the fired collection at most once. -/
theorem C6_best_move_derivation (f : Facts) (g : Facts) (maxLoops : Nat) :
    (D1_COMPUTE_BEST_MOVE.when f = true ↔
      f.best_move = none ∧ f.my_moves ≠ []) ∧
    (D1_COMPUTE_BEST_MOVE.when f = true →
      ∃ bm, (D1_COMPUTE_BEST_MOVE.act f).best_move = some bm ∧
        bm ∈ f.my_moves ∧ ∀ m ∈ f.my_moves, m.score ≤ bm.score) ∧
    (forwardChainCore g kbRules maxLoops).2.1.count "D1_COMPUTE_BEST_MOVE" ≤ 1 := by
  refine ⟨?_, ?_, core_fired_count_le_one g kbRules maxLoops _⟩
  · simp [D1_COMPUTE_BEST_MOVE, Option.isNone_iff_eq_none, List.length_pos]
  · intro h
    cases hpm : pyMax f.my_moves with
    | none =>
      cases hmv : f.my_moves with
      | nil =>
        exfalso
        simp [D1_COMPUTE_BEST_MOVE, hmv] at h
      | cons m ms => rw [hmv] at hpm; simp [pyMax] at hpm
    | some b =>
      obtain ⟨hmem, hall⟩ := pyMax_spec f.my_moves b hpm
      exact ⟨b, by simp [D1_COMPUTE_BEST_MOVE, compute_best_move, hpm], hmem, hall⟩

/-- Same store as `superEffFacts` but before the best move is derived. -/
def underivedFacts : Facts :=
  { my_pokemon := "", enemy_pokemon := ""
    my_types := [], enemy_types := []
    my_hp_pct := 50, enemy_hp_pct := 50
    my_advantage := false, enemy_advantage := false
    my_moves := [tackleMove, surfMove]
    has_priority_move := false, has_defensive_move := false
    is_faster := false, is_slower := false }

theorem C6_best_move_derivation_witness :
    D1_COMPUTE_BEST_MOVE.when underivedFacts = true ∧
    ∃ bm, (D1_COMPUTE_BEST_MOVE.act underivedFacts).best_move = some bm ∧
      bm ∈ underivedFacts.my_moves ∧
      ∀ m ∈ underivedFacts.my_moves, m.score ≤ bm.score :=
  have h := C6_best_move_derivation underivedFacts underivedFacts 20
  have hw : D1_COMPUTE_BEST_MOVE.when underivedFacts = true :=
    h.1.mpr ⟨rfl, by decide⟩
  ⟨hw, h.2.1 hw⟩

/-! ## C7: rule actions never touch the input keys -/

/-- The thirteen input keys of the fact store coincide in `g` and `f`:
only the derived keys (`best_move`, `recommendations`) may differ. -/
def inputsUnchanged (g f : Facts) : Prop :=
  g.my_pokemon = f.my_pokemon ∧ g.enemy_pokemon = f.enemy_pokemon ∧
  g.my_types = f.my_types ∧ g.enemy_types = f.enemy_types ∧
  g.my_hp_pct = f.my_hp_pct ∧ g.enemy_hp_pct = f.enemy_hp_pct ∧
  g.my_advantage = f.my_advantage ∧ g.enemy_advantage = f.enemy_advantage ∧
  g.my_moves = f.my_moves ∧ g.has_priority_move = f.has_priority_move ∧
  g.has_defensive_move = f.has_defensive_move ∧
  g.is_faster = f.is_faster ∧ g.is_slower = f.is_slower

/-- C7: executing any shipped rule's action on any fact store leaves all
thirteen input keys unchanged; only the derived keys `best_move` (D1)
and `recommendations` (`add_reco`) are ever written. -/
theorem C7_actions_write_only_derived_keys (r : Rule) (hr : r ∈ kbRules)
    (f : Facts) : inputsUnchanged (r.act f) f := by
  simp only [kbRules] at hr
  fin_cases hr <;>
    cases hbm : f.best_move <;>
      simp [inputsUnchanged, add_reco, hbm,
        R1_ATTACK_WITH_TYPE_ADVANTAGE, R2_SWITCH_IF_LOW_HP_AND_ENEMY_ADVANTAGE,
        R3_FINISH_ENEMY_IF_LOW_HP, R4_NEUTRAL_PLAY_IF_NO_CLEAR_ADVANTAGE,
        R5_RISKY_PLAY_IF_BOTH_LOW, D1_COMPUTE_BEST_MOVE, R6_USE_SUPER_EFFECTIVE,
        R7_USE_NEUTRAL_BEST, R8_SWITCH_IF_ALL_RESISTED,
        R9_DEFEND_IF_VERY_LOW_HP_NO_KO, R10_FINISH_WITH_PRIORITY,
        R11_SWITCH_IF_SLOW_AND_WEAK, R12_ATTACK_IF_FASTER_AND_OK_HP,
        R13_STRONG_PRESSURE_IF_FASTER_SUPER_EFFECTIVE, R14_NO_GOOD_MOVES_WARNING,
        R15_NO_MOVES_INFO, R16_SAME_MAIN_TYPE_BATTLE,
        R17_EXPLAIN_TYPE_ADVANTAGE_WITH_NAMES]

theorem C7_actions_write_only_derived_keys_witness :
    inputsUnchanged (R1_ATTACK_WITH_TYPE_ADVANTAGE.act lowHpFacts) lowHpFacts :=
  C7_actions_write_only_derived_keys R1_ATTACK_WITH_TYPE_ADVANTAGE
    (by simp [kbRules]) lowHpFacts

/-! ## C4: writes are visible to later rules within the same sweep -/

/-- A sweep ignores a leading block of rules that are already fired or
whose conditions are false on the current facts. -/
theorem sweep_skip_block (pre rest : List Rule) (f : Facts)
    (fired tr : List String) (a : Bool)
    (h : ∀ r ∈ pre, r.name ∈ fired ∨ r.when f = false) :
    sweep (pre ++ rest) f fired tr a = sweep rest f fired tr a := by
  induction pre with
  | nil => rfl
  | cons r pre ih =>
    have hr := h r (List.mem_cons_self r pre)
    have hrest : ∀ x ∈ pre, x.name ∈ fired ∨ x.when f = false :=
      fun x hx => h x (List.mem_cons_of_mem r hx)
    by_cases hmem : r.name ∈ fired
    · rw [List.cons_append, sweep_skip r (pre ++ rest) f fired tr a hmem]
      exact ih hrest
    · have hw : r.when f = false := by
        rcases hr with hr | hr
        · exact absurd hr hmem
        · exact hr
      rw [List.cons_append, sweep_nofire r (pre ++ rest) f fired tr a hmem hw]
      exact ih hrest

/-- The declared tail of the knowledge base after R6. -/
def kbAfterR6 : List Rule :=
  [ R7_USE_NEUTRAL_BEST
  , R8_SWITCH_IF_ALL_RESISTED
  , R9_DEFEND_IF_VERY_LOW_HP_NO_KO
  , R10_FINISH_WITH_PRIORITY
  , R11_SWITCH_IF_SLOW_AND_WEAK
  , R12_ATTACK_IF_FASTER_AND_OK_HP
  , R13_STRONG_PRESSURE_IF_FASTER_SUPER_EFFECTIVE
  , R14_NO_GOOD_MOVES_WARNING
  , R15_NO_MOVES_INFO
  , R16_SAME_MAIN_TYPE_BATTLE
  , R17_EXPLAIN_TYPE_ADVANTAGE_WITH_NAMES ]

/-- A battle state (moderate HP, no advantages, no speed/priority flags)
whose only variable part is the candidate move list; none of R1–R5 is
eligible on it, so the first rule that can fire in the first sweep is the
derived rule D1. -/
def chainFacts (moves : List Move) : Facts :=
  { my_pokemon := "", enemy_pokemon := ""
    my_types := [], enemy_types := []
    my_hp_pct := 45, enemy_hp_pct := 45
    my_advantage := false, enemy_advantage := false
    my_moves := moves
    has_priority_move := false, has_defensive_move := false
    is_faster := false, is_slower := false }

/-- C4: within a single sweep, D1's write of `best_move` is immediately
visible to the later-declared R6: on `chainFacts moves`, R6 is not
eligible before the run (no best move yet), yet whenever the
highest-scoring candidate has effectiveness ≥ 2, one single sweep fires
both D1 and R6. -/
theorem C4_same_sweep_visibility (moves : List Move) (bm : Move)
    (hbm : pyMax moves = some bm) (heff : 2 ≤ bm.eff) :
    R6_USE_SUPER_EFFECTIVE.when (chainFacts moves) = false ∧
    "D1_COMPUTE_BEST_MOVE" ∈ (sweep kbRules (chainFacts moves) [] [] false).2.1 ∧
    "R6_USE_SUPER_EFFECTIVE" ∈ (sweep kbRules (chainFacts moves) [] [] false).2.1 := by
  obtain ⟨m, ms, rfl⟩ : ∃ m ms, moves = m :: ms := by
    cases moves with
    | nil => simp [pyMax] at hbm
    | cons m ms => exact ⟨m, ms, rfl⟩
  have hD1 : D1_COMPUTE_BEST_MOVE.when (chainFacts (m :: ms)) = true := by
    simp [D1_COMPUTE_BEST_MOVE, chainFacts]
  have hbest : (D1_COMPUTE_BEST_MOVE.act (chainFacts (m :: ms))).best_move
      = some bm := by
    simp [D1_COMPUTE_BEST_MOVE, compute_best_move, chainFacts, hbm]
  have hR6 : R6_USE_SUPER_EFFECTIVE.when
      (D1_COMPUTE_BEST_MOVE.act (chainFacts (m :: ms))) = true := by
    simp only [R6_USE_SUPER_EFFECTIVE]
    rw [hbest]
    simp [heff]
  have hpre : ∀ r ∈ [ R1_ATTACK_WITH_TYPE_ADVANTAGE
                    , R2_SWITCH_IF_LOW_HP_AND_ENEMY_ADVANTAGE
                    , R3_FINISH_ENEMY_IF_LOW_HP
                    , R4_NEUTRAL_PLAY_IF_NO_CLEAR_ADVANTAGE
                    , R5_RISKY_PLAY_IF_BOTH_LOW ],
      r.name ∈ ([] : List String) ∨ r.when (chainFacts (m :: ms)) = false := by
    intro r hr
    fin_cases hr
    · exact Or.inr (by simp [R1_ATTACK_WITH_TYPE_ADVANTAGE, chainFacts])
    · exact Or.inr (by simp [R2_SWITCH_IF_LOW_HP_AND_ENEMY_ADVANTAGE, chainFacts])
    · exact Or.inr (by simp [R3_FINISH_ENEMY_IF_LOW_HP, chainFacts])
    · exact Or.inr (by norm_num [R4_NEUTRAL_PLAY_IF_NO_CLEAR_ADVANTAGE, chainFacts])
    · exact Or.inr (by norm_num [R5_RISKY_PLAY_IF_BOTH_LOW, chainFacts])
  refine ⟨rfl, ?_⟩
  rw [show kbRules
      = [ R1_ATTACK_WITH_TYPE_ADVANTAGE
        , R2_SWITCH_IF_LOW_HP_AND_ENEMY_ADVANTAGE
        , R3_FINISH_ENEMY_IF_LOW_HP
        , R4_NEUTRAL_PLAY_IF_NO_CLEAR_ADVANTAGE
        , R5_RISKY_PLAY_IF_BOTH_LOW ]
        ++ D1_COMPUTE_BEST_MOVE :: R6_USE_SUPER_EFFECTIVE :: kbAfterR6 from rfl]
  rw [sweep_skip_block _ _ _ _ _ _ hpre]
  rw [sweep_fire D1_COMPUTE_BEST_MOVE
    (R6_USE_SUPER_EFFECTIVE :: kbAfterR6) (chainFacts (m :: ms)) [] [] false
    (by simp) hD1]
  rw [sweep_fire R6_USE_SUPER_EFFECTIVE kbAfterR6
    (D1_COMPUTE_BEST_MOVE.act (chainFacts (m :: ms)))
    ([] ++ [D1_COMPUTE_BEST_MOVE.name]) ([] ++ [fmtRule D1_COMPUTE_BEST_MOVE]) true
    (by decide) hR6]
  obtain ⟨ext, hext⟩ := sweep_fired_extend kbAfterR6
    (R6_USE_SUPER_EFFECTIVE.act (D1_COMPUTE_BEST_MOVE.act (chainFacts (m :: ms))))
    (([] ++ [D1_COMPUTE_BEST_MOVE.name]) ++ [R6_USE_SUPER_EFFECTIVE.name])
    (([] ++ [fmtRule D1_COMPUTE_BEST_MOVE]) ++ [fmtRule R6_USE_SUPER_EFFECTIVE]) true
  rw [hext]
  constructor <;>
    simp [D1_COMPUTE_BEST_MOVE, R6_USE_SUPER_EFFECTIVE]

/-- A single super-effective candidate. -/
def boltMove : Move :=
  { name := "thunderbolt", identifier := "thunderbolt", type := "electric"
    power := 90, eff := 2, score := 180 }

theorem C4_same_sweep_visibility_witness :
    R6_USE_SUPER_EFFECTIVE.when (chainFacts [boltMove]) = false ∧
    "D1_COMPUTE_BEST_MOVE" ∈ (sweep kbRules (chainFacts [boltMove]) [] [] false).2.1 ∧
    "R6_USE_SUPER_EFFECTIVE" ∈ (sweep kbRules (chainFacts [boltMove]) [] [] false).2.1 :=
  C4_same_sweep_visibility [boltMove] boltMove rfl (by decide)
